import Mathlib

/-!
Verification development for the TypeScript-to-Scala.js facade converter
(`src/converter.ts`).  The definitions below are a shallow embedding of the
converter: the TypeScript AST fragments the converter inspects are modelled as
inductive types, and each emission function of the source is modelled as a
Lean function producing the list of output lines it writes (writer `newLine`
calls become `""` entries; a `write(s).block(...)` becomes a header line
ending in an opening brace, the block's lines, and a closing-brace line;
indentation is not tracked, as no checked property depends on it).
-/

namespace TsToScala

/-- Literal nodes that can occur inside a `LiteralType` node
(`ts.LiteralTypeNode.literal`).  Numeric literals carry their source text,
since the converter inspects the text for a decimal point. -/
inductive TsLit where
  | boolLit (b : Bool)
  | strLit (s : String)
  | numLit (text : String)
  | nullLit
  | otherLit

mutual

/-- TypeScript type nodes, covering exactly the `SyntaxKind`s dispatched in
`convertTypeToScala` (converter.ts lines 659-703); every other kind is the
`otherType` default.  `typeOperator` records whether the operator is `keyof`. -/
inductive TsType where
  | stringKw
  | numberKw
  | booleanKw
  | voidKw
  | nullKw
  | undefinedKw
  | anyKw
  | objectKw
  | neverKw
  | thisType
  | typeRef (name : String) (args : List TsType)
  | literal (lit : TsLit)
  | typeLiteral (members : List TsTypeElement)
  | functionType (params : List (Option TsType)) (ret : Option TsType)
  | parenthesized (inner : TsType)
  | arrayType (elem : TsType)
  | unionType (types : List TsType)
  | intersectionType (types : List TsType)
  | typeOperator (isKeyOf : Bool) (inner : TsType)
  | otherType

/-- Members of interfaces and of type-literal nodes (`ts.TypeElement`):
property signatures, method signatures and index signatures; any other member
kind is `otherElement` (skipped by `processInterfaceMember`). -/
inductive TsTypeElement where
  | propertySignature (name : String) (readonly : Bool) (ty : Option TsType)
  | methodSignature (name : String) (typeParams : List TsTypeParam) (params : List TsParam) (ret : Option TsType)
  | indexSignature (paramName : String) (paramTy : Option TsType) (retTy : Option TsType) (readonly : Bool)
  | otherElement

/-- A type parameter: its name and optional constraint (`tp.constraint`). -/
inductive TsTypeParam where
  | mk (name : String) (constraint : Option TsType)

/-- A value parameter: name, optional declared type, `?` marker
(`questionToken`) and rest marker (`dotDotDotToken`). -/
inductive TsParam where
  | mk (name : String) (ty : Option TsType) (optional : Bool) (rest : Bool)

end

def TsTypeParam.name : TsTypeParam → String
  | .mk n _ => n

def TsTypeParam.constraint : TsTypeParam → Option TsType
  | .mk _ c => c

def TsParam.name : TsParam → String
  | .mk n _ _ _ => n

def TsParam.ty : TsParam → Option TsType
  | .mk _ t _ _ => t

def TsParam.optional : TsParam → Bool
  | .mk _ _ o _ => o

def TsParam.rest : TsParam → Bool
  | .mk _ _ _ r => r

/-- The shared `SCALA_RESERVED_WORDS` constant (converter.ts line 5). -/
def scalaReservedWords : List String :=
  ["abstract", "case", "catch", "class", "def", "do", "else", "extends", "false", "final",
   "finally", "for", "forSome", "if", "implicit", "import", "lazy", "macro", "match", "new",
   "null", "object", "override", "package", "private", "protected", "return", "sealed",
   "super", "then", "this", "throw", "trait", "try", "true", "type", "val", "var", "while",
   "with", "yield"]

/-- First character class of the bare-identifier regex `[a-zA-Z_]`. -/
def isIdentStart (c : Char) : Bool := c.isAlpha || c = '_'

/-- Later character class of the bare-identifier regex `[a-zA-Z0-9_]`. -/
def isIdentChar (c : Char) : Bool := c.isAlphanum || c = '_'

/-- The test `packageName.match(/^[a-zA-Z_][a-zA-Z0-9_]*$/)` from
converter.ts line 39, expressed over the character list of the string. -/
def isScalaIdent (s : String) : Bool :=
  match s.data with
  | [] => false
  | c :: cs => isIdentStart c && cs.all isIdentChar

/-- Scala verbatim-identifier quoting: wrap in backquotes. -/
def quoteBacktick (s : String) : String := "`" ++ s ++ "`"

/-- The inline pattern `SCALA_RESERVED_WORDS.includes(name) ? backquoted :
name` used for module names (line 150), class names (line 206), method names
(lines 477 and 516) and parameter names (line 532). -/
def sanitizeReserved (name : String) : String :=
  if scalaReservedWords.contains name then quoteBacktick name else name

/-- The package clause computed at converter.ts lines 39-41: quoted when the
name contains a hyphen, fails the bare-identifier regex, or is reserved. -/
def packageDeclaration (packageName : String) : String :=
  if packageName.data.contains '-' || !(isScalaIdent packageName)
      || scalaReservedWords.contains packageName then
    "package " ++ quoteBacktick packageName
  else
    "package " ++ packageName

/-- Modelled from the spec: `sanitize(identifier)` of section 4.2 — quote when
the identifier is reserved or fails the bare-identifier grammar, otherwise
return unchanged.  Used to compare the spec's uniform rule with the per-site
rules of the source. -/
def sanitizeSpecModel (name : String) : String :=
  if scalaReservedWords.contains name || !(isScalaIdent name) then
    quoteBacktick name
  else name

/-- `capitalize` (converter.ts line 1024): upper-case the first character. -/
def capitalize (s : String) : String :=
  match s.data with
  | [] => ""
  | c :: cs => String.mk (c.toUpper :: cs)

/-- String trimming as performed by JavaScript `String.prototype.trim`. -/
def jsTrim (s : String) : String :=
  String.mk (((s.data.dropWhile Char.isWhitespace).reverse.dropWhile Char.isWhitespace).reverse)

/-- The `emit` helper of `generateGlobalScopeObject` (line 951): write each
line unless it was already written, threading the set of seen lines. -/
def emitDedup (seen : List String) : List String → List String
  | [] => []
  | l :: ls => if l ∈ seen then emitDedup seen ls else l :: emitDedup (l :: seen) ls

/-- First-occurrence de-duplication, the semantics of `[...new Set(xs)]`
(line 832) and of the manual seen-set loop in `convertIntersectionType`. -/
def dedupFirst (l : List String) : List String := emitDedup [] l

/-- The last dotted segment of a namespace path:
`namespace.split('.').pop()!` (converter.ts line 291). -/
def lastSegmentAux : List Char → List Char → List Char
  | [], acc => acc.reverse
  | c :: cs, acc => if c = '.' then lastSegmentAux cs [] else lastSegmentAux cs (c :: acc)

/-- See `lastSegmentAux`: computes `s.split('.').pop()!`. -/
def lastSegment (s : String) : String := String.mk (lastSegmentAux s.data [])

/-- `ts.isTypeLiteralNode` on a type node. -/
def isTypeLiteralType : TsType → Bool
  | .typeLiteral _ => true
  | _ => false

/-- `ts.isLiteralTypeNode(t) && ts.isStringLiteral(t.literal)`. -/
def isStringLiteralType : TsType → Bool
  | .literal (.strLit _) => true
  | _ => false

/-- `ts.isLiteralTypeNode(t) && ts.isNumericLiteral(t.literal)`. -/
def isNumericLiteralType : TsType → Bool
  | .literal (.numLit _) => true
  | _ => false

/-- The `allIntegers` member predicate (lines 808-814): a numeric literal
whose text has no decimal point; false for any non-numeric-literal node. -/
def numericLiteralNoDot : TsType → Bool
  | .literal (.numLit text) => !(text.data.contains '.')
  | _ => false

/-- The `allDoubles` member predicate (lines 816-822): a numeric literal whose
text contains a decimal point; false for any non-numeric-literal node. -/
def numericLiteralHasDot : TsType → Bool
  | .literal (.numLit text) => text.data.contains '.'
  | _ => false

/-- `convertLiteralType` (converter.ts lines 705-721). -/
def convertLiteralType : TsLit → String
  | .boolLit _ => "Boolean"
  | .strLit _ => "String"
  | .numLit text => if text.data.contains '.' then "Double" else "Int"
  | .nullLit => "Null"
  | .otherLit => "js.Any"

/-- The `typeMapping` lookup table of `convertTypeReference`
(converter.ts lines 737-754). -/
def typeMapping : String → Option String
  | "null" => some "Null"
  | "undefined" => some "Unit"
  | "Float32Array" => some "js.typedarray.Float32Array"
  | "Float64Array" => some "js.typedarray.Float64Array"
  | "Uint8Array" => some "js.typedarray.Uint8Array"
  | "Uint16Array" => some "js.typedarray.Uint16Array"
  | "Uint32Array" => some "js.typedarray.Uint32Array"
  | "Int8Array" => some "js.typedarray.Int8Array"
  | "Int16Array" => some "js.typedarray.Int16Array"
  | "Int32Array" => some "js.typedarray.Int32Array"
  | "Uint8ClampedArray" => some "js.typedarray.Uint8ClampedArray"
  | "ArrayBuffer" => some "js.typedarray.ArrayBuffer"
  | "ArrayBufferView" => some "js.typedarray.ArrayBufferView"
  | "DataView" => some "js.typedarray.DataView"
  | "ReadonlyArray" => some "js.Array"
  | "PromiseLike" => some "js.Thenable"
  | _ => none

/-- `convertTypeReference` (lines 723-767), taking the reference name and the
already-mapped type arguments. -/
def convertTypeReference (typeName : String) (typeArgs : List String) : String :=
  if typeName = "Array" && !typeArgs.isEmpty then
    "js.Array[" ++ String.intercalate ", " typeArgs ++ "]"
  else if typeName = "ReadonlyArray" && !typeArgs.isEmpty then
    "js.Array[_ <: " ++ String.intercalate ", " typeArgs ++ "]"
  else
    match typeMapping typeName with
    | some mapped =>
        if !typeArgs.isEmpty then mapped ++ "[" ++ String.intercalate ", " typeArgs ++ "]"
        else mapped
    | none =>
        if !typeArgs.isEmpty then typeName ++ "[" ++ String.intercalate ", " typeArgs ++ "]"
        else typeName

/-- `convertFunctionType` (lines 769-782), taking mapped parameter types and
the mapped return type. -/
def convertFunctionType (params : List String) (returnType : String) : String :=
  match params with
  | [] => "js.Function0[" ++ returnType ++ "]"
  | [p1] => "js.Function1[" ++ p1 ++ ", " ++ returnType ++ "]"
  | [p1, p2] => "js.Function2[" ++ p1 ++ ", " ++ p2 ++ ", " ++ returnType ++ "]"
  | _ => "js.Function"

/-- `convertTypeOperator` (lines 879-885): `keyof` degrades to `String`, any
other operator to `js.Any`; the operand is never recursed into. -/
def convertTypeOperator (isKeyOf : Bool) : String :=
  if isKeyOf then "String" else "js.Any"

/-- `convertIntersectionType` (lines 863-877): de-duplicate the mapped member
texts preserving first-seen order and join with `with`. -/
def convertIntersectionType (types : List String) : String :=
  String.intercalate " with " (dedupFirst types)

/-- `convertUnionType` (lines 789-861).  `paired` is the list of member nodes
zipped with their mapped texts, so `paired.map (·.2)` is the source's
`types = node.types.map(convertTypeToScala)` and
`(paired.filter (fun p => !(isStringLiteralType p.1))).map (·.2)` is the
source's `node.types.filter(t => !isStringLiteral(t)).map(convertTypeToScala)`
(the zip only serves to keep the recursion structural). -/
def convertUnionTypeCore (ts : List TsType) (paired : List (TsType × String)) : String :=
  let types := paired.map (·.2)
  if ts.all isStringLiteralType then "String"
  else if ts.all isNumericLiteralType && ts.all numericLiteralNoDot then "Int"
  else if ts.all isNumericLiteralType && ts.all numericLiteralHasDot then "Double"
  else
    let uniqueTypes := dedupFirst types
    let otherTypes := uniqueTypes.filter (fun t => t != "Null" && t != "Unit")
    if "Null" ∈ uniqueTypes ∧ "Unit" ∈ uniqueTypes ∧ otherTypes.length = 1 then
      otherTypes.headD "" ++ " | Null | Unit"
    else
      let hasStringLits := ts.any isStringLiteralType
      let hasNonStringLits := ts.any (fun t => !(isStringLiteralType t))
      if hasStringLits && hasNonStringLits then
        String.intercalate " | "
          ("String" :: (paired.filter (fun p => !(isStringLiteralType p.1))).map (·.2))
      else
        String.intercalate " | " uniqueTypes

mutual

/-- `convertTypeToScala` (converter.ts lines 659-703); array types inline
`convertArrayType` (lines 784-787). -/
def convertTypeToScala : TsType → String
  | .stringKw => "String"
  | .numberKw => "Double"
  | .booleanKw => "Boolean"
  | .voidKw => "Unit"
  | .nullKw => "Null"
  | .undefinedKw => "Unit"
  | .anyKw => "js.Any"
  | .objectKw => "js.Object"
  | .neverKw => "Nothing"
  | .thisType => "this.type"
  | .typeRef name args => convertTypeReference name (convertTypesList args)
  | .literal l => convertLiteralType l
  | .typeLiteral _ => "js.Any"
  | .functionType ps ret =>
      convertFunctionType (convertOptTypesList ps)
        (match ret with
         | some r => convertTypeToScala r
         | none => "Unit")
  | .parenthesized t => convertTypeToScala t
  | .arrayType elem => "js.Array[" ++ convertTypeToScala elem ++ "]"
  | .unionType ts => convertUnionTypeCore ts (convertTypesPaired ts)
  | .intersectionType ts => convertIntersectionType (convertTypesList ts)
  | .typeOperator k _ => convertTypeOperator k
  | .otherType => "js.Any"
  termination_by structural t => t

/-- `nodes.map(convertTypeToScala)`, spelled recursively for structural
termination. -/
def convertTypesList : List TsType → List String
  | [] => []
  | t :: ts => convertTypeToScala t :: convertTypesList ts
  termination_by structural l => l

/-- Each node paired with its mapped text (see `convertUnionTypeCore`). -/
def convertTypesPaired : List TsType → List (TsType × String)
  | [] => []
  | t :: ts => (t, convertTypeToScala t) :: convertTypesPaired ts
  termination_by structural l => l

/-- `params.map(p => p.type ? convertTypeToScala(p.type) : 'js.Any')` for
function-type parameters (line 770). -/
def convertOptTypesList : List (Option TsType) → List String
  | [] => []
  | none :: ps => "js.Any" :: convertOptTypesList ps
  | some t :: ps => convertTypeToScala t :: convertOptTypesList ps
  termination_by structural l => l

end

/-- Wrapper giving `convertUnionType` its source-level signature
(node members in, text out). -/
def convertUnionType (ts : List TsType) : String :=
  convertUnionTypeCore ts (convertTypesPaired ts)

/-- `node.type ? convertTypeToScala(node.type) : default`. -/
def optConvert (ty : Option TsType) (dflt : String) : String :=
  match ty with
  | some t => convertTypeToScala t
  | none => dflt

/-- Rendering of one type parameter with its optional `<:` constraint
(the `typeParams` maps at lines 209-213, 324-328, 480-484, 519-523, 919-923). -/
def renderTypeParam (tp : TsTypeParam) : String :=
  tp.name ++
    (match tp.constraint with
     | some c => " <: " ++ convertTypeToScala c
     | none => "")

/-- `typeParams.length > 0 ? `[...]` : ''`. -/
def typeParamsString (tps : List TsTypeParam) : String :=
  if tps.isEmpty then ""
  else "[" ++ String.intercalate ", " (tps.map renderTypeParam) ++ "]"

/-- The regex replace `paramType.replace(/^js\.Array\[(.+)\]$/, '$1')` used
for rest parameters (lines 494 and 536). -/
def stripJsArrayWrapper (s : String) : String :=
  let d := s.data
  if d.take 9 = "js.Array[".data && d.getLast? = some ']' && 11 ≤ d.length then
    String.mk ((d.drop 9).dropLast)
  else s

/-- The `override` prefix for methods named `toString` or `clone`
(lines 507 and 546). -/
def overridePrefixFor (name : String) : String :=
  if name = "toString" || name = "clone" then "override " else ""

/-- Parameter rendering in `processMethodSignature` (lines 527-543):
parameter names are sanitized against reserved words; rest parameters unwrap
one `js.Array` layer and append `*`; optional parameters get ` = ???`. -/
def renderParamSig (p : TsParam) : String :=
  let paramType := optConvert p.ty "js.Any"
  let safeParamName := sanitizeReserved p.name
  if p.rest then safeParamName ++ ": " ++ stripJsArrayWrapper paramType ++ "*"
  else safeParamName ++ ": " ++ paramType ++ (if p.optional then " = ???" else "")

/-- Parameter rendering in `processMethodDeclaration` (lines 488-501):
identical to `renderParamSig` except the parameter name is NOT sanitized. -/
def renderParamDecl (p : TsParam) : String :=
  let paramType := optConvert p.ty "js.Any"
  if p.rest then p.name ++ ": " ++ stripJsArrayWrapper paramType ++ "*"
  else p.name ++ ": " ++ paramType ++ (if p.optional then " = ???" else "")

/-- `processPropertySignature` (lines 460-466). -/
def processPropertySignature (name : String) (readonly : Bool) (ty : Option TsType) : List String :=
  [(if readonly then "def" else "var") ++ " " ++ name ++ ": " ++ optConvert ty "js.Any"
    ++ " = js.native"]

/-- `processMethodSignature` (lines 511-548). -/
def processMethodSignature (name : String) (tps : List TsTypeParam) (params : List TsParam)
    (ret : Option TsType) : List String :=
  [overridePrefixFor name ++ "def " ++ sanitizeReserved name ++ typeParamsString tps
    ++ "(" ++ String.intercalate ", " (params.map renderParamSig) ++ "): "
    ++ optConvert ret "js.Dynamic" ++ " = js.native"]

/-- `processIndexSignature` (lines 550-566). -/
def processIndexSignature (paramName : String) (paramTy : Option TsType)
    (retTy : Option TsType) (readonly : Bool) : List String :=
  let indexType := optConvert paramTy "js.Any"
  let returnType := optConvert retTy "js.Any"
  ["@JSBracketAccess",
   "def apply(" ++ paramName ++ ": " ++ indexType ++ "): " ++ returnType ++ " = js.native"]
  ++ (if readonly then []
      else ["@JSBracketAccess",
            "def update(" ++ paramName ++ ": " ++ indexType ++ ", v: " ++ returnType
              ++ "): Unit = js.native"])

/-- `processInterfaceMember` (lines 425-437): dispatch on the member kind;
unhandled kinds write nothing. -/
def processInterfaceMember : TsTypeElement → List String
  | .propertySignature n ro ty => processPropertySignature n ro ty
  | .methodSignature n tps ps ret => processMethodSignature n tps ps ret
  | .indexSignature pn pt rt ro => processIndexSignature pn pt rt ro
  | .otherElement => []

/-- `ts.isPropertySignature(m) && m.type && ts.isTypeLiteralNode(m.type)`,
the filter for inline-object-literal properties (lines 339 and 370). -/
def isInlineTypeLiteralProp : TsTypeElement → Bool
  | .propertySignature _ _ (some (.typeLiteral _)) => true
  | _ => false

/-- One item written into the interface trait body (lines 337-358): an
inline-type-literal property becomes a reference to the synthetic nested
type `Interface.CapitalizedProp`; any other member is rendered through
`processInterfaceMember` into a temporary writer and trimmed. -/
def interfaceTraitItem (interfaceName : String) (m : TsTypeElement) : String :=
  match m with
  | .propertySignature pn ro (some (.typeLiteral _)) =>
      (if ro then "def" else "var") ++ " " ++ pn ++ ": " ++ interfaceName ++ "."
        ++ capitalize pn ++ " = js.native"
  | _ => jsTrim (String.intercalate "\n" (processInterfaceMember m))

/-- One member of a first-level nested trait (lines 380-388): a further
inline-type-literal property becomes a `Trait.CapitalizedProp` reference
(always `var` here); others go through `processInterfaceMember`. -/
def nestedTraitItem (traitName : String) (m : TsTypeElement) : List String :=
  match m with
  | .propertySignature pn _ (some (.typeLiteral _)) =>
      ["var " ++ pn ++ ": " ++ traitName ++ "." ++ capitalize pn ++ " = js.native"]
  | _ => processInterfaceMember m

/-- One second-level nested trait inside the inner companion object
(lines 396-403): the deep type-literal's members are emitted directly via
`processInterfaceMember`, with no further special-casing of type literals. -/
def deepNestedEntry : TsTypeElement → List String
  | .propertySignature pn _ (some (.typeLiteral ms)) =>
      ["@js.native", "trait " ++ capitalize pn ++ " extends js.Object \x7b"]
      ++ ms.flatMap processInterfaceMember ++ ["\x7d"]
  | _ => []

/-- The companion-object entry for one inline-type-literal property
(lines 374-406): the nested trait, then, if it itself holds inline type
literals, an inner object with one second-level trait per such member. -/
def companionEntry : TsTypeElement → List String
  | .propertySignature pn _ (some (.typeLiteral ms)) =>
      let traitName := capitalize pn
      ["@js.native", "trait " ++ traitName ++ " extends js.Object \x7b"]
      ++ ms.flatMap (nestedTraitItem traitName) ++ ["\x7d"]
      ++ (let deep := ms.filter isInlineTypeLiteralProp
          if deep.isEmpty then []
          else ["", "object " ++ traitName ++ " \x7b"]
               ++ deep.flatMap deepNestedEntry ++ ["\x7d"])
  | _ => []

/-- An interface declaration: name, type parameters, members. -/
structure InterfaceDecl where
  name : String
  typeParams : List TsTypeParam
  members : List TsTypeElement

/-- `processInterfaceDeclaration` (lines 319-412): the trait with seen-set
de-duplicated members, then a companion object with nested traits for
inline-object-literal properties. -/
def processInterfaceDeclaration (i : InterfaceDecl) : List String :=
  let inline := i.members.filter isInlineTypeLiteralProp
  [""]
  ++ ["@js.native",
      "trait " ++ i.name ++ typeParamsString i.typeParams ++ " extends js.Object \x7b"]
  ++ dedupFirst (i.members.map (interfaceTraitItem i.name))
  ++ ["\x7d"]
  ++ (if inline.isEmpty then []
      else ["", "object " ++ i.name ++ " \x7b"] ++ inline.flatMap companionEntry ++ ["\x7d"])
  ++ [""]

/-- Modifier flags read off a class member's modifier list. -/
structure Modifiers where
  isStatic : Bool
  isPrivate : Bool
  isProtected : Bool
  isReadonly : Bool

/-- The no-modifier value. -/
def noMods : Modifiers := ⟨false, false, false, false⟩

/-- Class members: properties, methods, constructors; anything else falls to
`otherMember` (skipped by `processClassMember`). -/
inductive ClassMember where
  | property (name : String) (mods : Modifiers) (ty : Option TsType)
  | method (name : String) (mods : Modifiers) (typeParams : List TsTypeParam)
      (params : List TsParam) (ret : Option TsType)
  | ctorDecl (mods : Modifiers) (params : List TsParam)
  | otherMember

/-- A heritage clause: whether its token is `extends` (vs `implements`) and
the expression texts of its types. -/
structure HeritageClause where
  isExtendsKeyword : Bool
  typeTexts : List String

/-- A class declaration.  `name` is optional (`node.name?.getText()`). -/
structure ClassDecl where
  name : Option String
  isAbstract : Bool
  typeParams : List TsTypeParam
  heritageClauses : List HeritageClause
  members : List ClassMember

/-- `processPropertyDeclaration` (lines 439-458): private/protected and
static members are skipped; readonly renders `def`, otherwise `var`; abstract
classes omit the ` = js.native` body marker. -/
def processPropertyDeclaration (name : String) (mods : Modifiers) (ty : Option TsType)
    (isAbstractClass : Bool) : List String :=
  if mods.isPrivate || mods.isProtected then []
  else if mods.isStatic then []
  else [(if mods.isReadonly then "def" else "var") ++ " " ++ name ++ ": "
          ++ optConvert ty "js.Any" ++ (if isAbstractClass then "" else " = js.native")]

/-- `processMethodDeclaration` (lines 468-509): private/protected methods are
skipped; the method name is sanitized; return type defaults to `Unit`;
abstract classes omit the body marker. -/
def processMethodDeclaration (name : String) (mods : Modifiers) (tps : List TsTypeParam)
    (params : List TsParam) (ret : Option TsType) (isAbstractClass : Bool) : List String :=
  if mods.isPrivate || mods.isProtected then []
  else [overridePrefixFor name ++ "def " ++ sanitizeReserved name ++ typeParamsString tps
          ++ "(" ++ String.intercalate ", " (params.map renderParamDecl) ++ "): "
          ++ optConvert ret "Unit" ++ (if isAbstractClass then "" else " = js.native")]

/-- `processClassMember` (lines 414-423): only property and method
declarations are handled. -/
def processClassMember (m : ClassMember) (isAbstractClass : Bool) : List String :=
  match m with
  | .property n mods ty => processPropertyDeclaration n mods ty isAbstractClass
  | .method n mods tps ps ret => processMethodDeclaration n mods tps ps ret isAbstractClass
  | .ctorDecl _ _ => []
  | .otherMember => []

/-- The static test of the member partition and of the instance-member loop
(lines 225 and 282). -/
def isStaticModifiedMember : ClassMember → Bool
  | .property _ mods _ => mods.isStatic
  | .method _ mods _ _ _ => mods.isStatic
  | .ctorDecl mods _ => mods.isStatic
  | .otherMember => false

/-- Static method declarations for the companion object (line 226). -/
def isStaticMethodMember : ClassMember → Bool
  | .method _ mods _ _ _ => mods.isStatic
  | _ => false

/-- Static property declarations for the companion object (line 227). -/
def isStaticPropertyMember : ClassMember → Bool
  | .property _ mods _ => mods.isStatic
  | _ => false

/-- `ts.isConstructorDeclaration` filter (line 232). -/
def isCtorMember : ClassMember → Bool
  | .ctorDecl _ _ => true
  | _ => false

/-- `c.parameters.length > 0` on a constructor (line 233). -/
def ctorHasParams : ClassMember → Bool
  | .ctorDecl _ ps => !ps.isEmpty
  | _ => false

/-- The secondary-constructor lines (lines 270-278): one `def this(...) =
this()` per constructor with parameters, rendered `name: type` with no
optional/rest handling and no visibility check. -/
def secondaryCtorLines : ClassMember → List String
  | .ctorDecl _ ps =>
      if ps.isEmpty then []
      else ["def this("
              ++ String.intercalate ", "
                  (ps.map (fun p => p.name ++ ": " ++ optConvert p.ty "js.Any"))
              ++ ") = this()"]
  | _ => []

/-- The class's own `@JSGlobal` annotation (lines 240-244): the full dotted
namespace path when nested, bare `@JSGlobal` at top level. -/
def classJSGlobalAnn (ns className : String) : String :=
  if ns.isEmpty then "@JSGlobal"
  else "@JSGlobal(\"" ++ ns ++ "." ++ className ++ "\")"

/-- The static companion object's `@JSGlobal` annotation (lines 290-296):
only the LAST namespace segment (`namespace.split('.').pop()!`) is used. -/
def companionJSGlobalAnn (ns className : String) : String :=
  if ns.isEmpty then "@JSGlobal"
  else "@JSGlobal(\"" ++ lastSegment ns ++ "." ++ className ++ "\")"

/-- One companion-object line per public static property (lines 298-307):
readonly renders `val`, otherwise `var`; private/protected are skipped. -/
def staticPropertyCompanionLines : ClassMember → List String
  | .property n mods ty =>
      if mods.isPrivate || mods.isProtected then []
      else [(if mods.isReadonly then "val" else "var") ++ " " ++ n ++ ": "
              ++ optConvert ty "js.Any" ++ " = js.native"]
  | _ => []

/-- Companion-object emission of one static method (lines 308-311):
private/protected are skipped, the rest go through
`processMethodDeclaration` with the abstract flag unset. -/
def staticMethodCompanionLines : ClassMember → List String
  | .method n mods tps ps ret =>
      if mods.isPrivate || mods.isProtected then []
      else processMethodDeclaration n mods tps ps ret false
  | _ => []

/-- `processClassDeclaration` (lines 199-317). -/
def processClassDeclaration (ns : String) (c : ClassDecl) : List String :=
  let className := c.name.getD "AnonymousClass"
  let safeClassName := sanitizeReserved className
  let tps := typeParamsString c.typeParams
  let staticMethods := c.members.filter isStaticMethodMember
  let staticProperties := c.members.filter isStaticPropertyMember
  let ctorDeclarations := c.members.filter isCtorMember
  let hasParamCtor := ctorDeclarations.any ctorHasParams
  let heritageTypes := (c.heritageClauses.map HeritageClause.typeTexts).flatten
  let extendsPair :=
    if heritageTypes.isEmpty then ("js.Object", ([] : List String))
    else
      match c.heritageClauses.find? HeritageClause.isExtendsKeyword with
      | some hc =>
          if !hc.typeTexts.isEmpty then (hc.typeTexts.headD "", heritageTypes.drop 1)
          else (heritageTypes.headD "", heritageTypes.drop 1)
      | none => (heritageTypes.headD "", heritageTypes.drop 1)
  let heritageString := String.intercalate " with " (extendsPair.1 :: extendsPair.2)
  [""]
  ++ ["@js.native", classJSGlobalAnn ns className]
  ++ [(if c.isAbstract then "abstract " else "") ++ "class " ++ safeClassName ++ tps
        ++ (if hasParamCtor then " protected ()" else "") ++ " extends " ++ heritageString
        ++ " \x7b"]
  ++ ctorDeclarations.flatMap secondaryCtorLines
  ++ c.members.flatMap
       (fun m => if isStaticModifiedMember m then [] else processClassMember m c.isAbstract)
  ++ ["\x7d", ""]
  ++ (if staticMethods.isEmpty && staticProperties.isEmpty then []
      else ["@js.native", companionJSGlobalAnn ns className,
            "object " ++ safeClassName ++ " extends js.Object \x7b"]
           ++ staticProperties.flatMap staticPropertyCompanionLines
           ++ staticMethods.flatMap staticMethodCompanionLines
           ++ ["\x7d", ""])

/-- `processEnumDeclaration` (lines 568-603). -/
def processEnumDeclaration (ns : String) (enumName : String) (memberNames : List String) :
    List String :=
  [""]
  ++ ["@js.native", "sealed trait " ++ enumName ++ " extends js.Object \x7b", "\x7d", "", ""]
  ++ ["@js.native",
      (if ns.isEmpty then "@JSGlobal(\"" ++ enumName ++ "\")"
       else "@JSGlobal(\"" ++ ns ++ "." ++ enumName ++ "\")"),
      "object " ++ enumName ++ " extends js.Object \x7b"]
  ++ memberNames.flatMap
       (fun m => if m.isEmpty then [] else ["var " ++ m ++ ": " ++ enumName ++ " = js.native"])
  ++ ["@JSBracketAccess", "def apply(value: " ++ enumName ++ "): String = js.native"]
  ++ ["\x7d", ""]

/-- A variable declaration together with the `const` flag of its declaration
list (`decl.parent.flags & ts.NodeFlags.Const`). -/
structure VarDeclInfo where
  name : String
  ty : Option TsType
  isConst : Bool

/-- A type alias declaration. -/
structure TypeAliasDecl where
  name : String
  typeParams : List TsTypeParam
  ty : TsType

/-- A function declaration (`node.name?.getText()` may be absent). -/
structure FunctionDeclInfo where
  name : Option String
  typeParams : List TsTypeParam
  params : List TsParam
  ret : Option TsType

/-- An export assignment: whether its expression is a bare identifier, and
that expression's text. -/
structure ExportAssignmentInfo where
  isIdentifierExpr : Bool
  exprText : String

/-- Top-level statements, covering the `SyntaxKind`s dispatched by
`processStatement` (lines 101-137); unhandled kinds are `otherStatement`. -/
inductive Statement where
  | moduleDecl (hasExport : Bool) (nameIsStringLiteral : Bool) (name : String)
      (body : Option (List Statement))
  | classDecl (hasExport : Bool) (decl : ClassDecl)
  | interfaceDecl (hasExport : Bool) (decl : InterfaceDecl)
  | enumDecl (hasExport : Bool) (name : String) (memberNames : List String)
  | typeAliasDecl (hasExport : Bool) (decl : TypeAliasDecl)
  | variableStatement (hasExport : Bool) (decls : List VarDeclInfo)
  | functionDecl (hasExport : Bool) (decl : FunctionDeclInfo)
  | exportAssignment (info : ExportAssignmentInfo)
  | importDecl
  | otherStatement

/-- `hasExportModifier` (lines 887-889). -/
def hasExportModifier : Statement → Bool
  | .moduleDecl he _ _ _ => he
  | .classDecl he _ => he
  | .interfaceDecl he _ => he
  | .enumDecl he _ _ => he
  | .typeAliasDecl he _ => he
  | .variableStatement he _ => he
  | .functionDecl he _ => he
  | _ => false

/-- `getTypeAliasName` (lines 1006-1018). -/
def getTypeAliasName (ta : TypeAliasDecl) : String :=
  ta.name ++ typeParamsString ta.typeParams

/-- `convertTypeAliasToScala` (lines 1020-1022). -/
def convertTypeAliasToScala (ta : TypeAliasDecl) : String :=
  convertTypeToScala ta.ty

/-- One `type N = V` line of a synthesized object. -/
def typeAliasLine (ta : TypeAliasDecl) : String :=
  "type " ++ getTypeAliasName ta ++ " = " ++ convertTypeAliasToScala ta

/-- The variable line of `generateModuleObject` (lines 906-913): `val` if the
declaration list carries the const flag, otherwise a parameterless `def`. -/
def moduleVariableLine (v : VarDeclInfo) : String :=
  (if v.isConst then "val" else "def") ++ " " ++ v.name ++ ": "
    ++ optConvert v.ty "js.Any" ++ " = js.native"

/-- The variable line of `generateGlobalScopeObject` (lines 981-988),
textually identical to the module-object variant. -/
def globalVariableLine (v : VarDeclInfo) : String :=
  (if v.isConst then "val" else "def") ++ " " ++ v.name ++ ": "
    ++ optConvert v.ty "js.Any" ++ " = js.native"

/-- The function line of `generateModuleObject` (lines 915-935): with type
parameters, return type defaulting to `js.Dynamic`. -/
def moduleFunctionLine (f : FunctionDeclInfo) : String :=
  "def " ++ f.name.getD "" ++ typeParamsString f.typeParams
    ++ "(" ++ String.intercalate ", "
          (f.params.map (fun p => p.name ++ ": " ++ optConvert p.ty "js.Any"))
    ++ "): " ++ optConvert f.ret "js.Dynamic" ++ " = js.native"

/-- The function line of `generateGlobalScopeObject` (lines 966-975 and
991-999, rendered identically at both places): no type parameters, return
type defaulting to `Unit`. -/
def globalFunctionLine (f : FunctionDeclInfo) : String :=
  "def " ++ f.name.getD ""
    ++ "(" ++ String.intercalate ", "
          (f.params.map (fun p => p.name ++ ": " ++ optConvert p.ty "js.Any"))
    ++ "): " ++ optConvert f.ret "Unit" ++ " = js.native"

/-- The per-module export collection (lines 159-184). -/
structure ModuleExports where
  interfaces : List InterfaceDecl
  types : List TypeAliasDecl
  functions : List FunctionDeclInfo
  vars : List VarDeclInfo  -- the source record field is named `variables`

/-- Collection of module-scope exports (lines 167-184): every interface, type
alias and function is collected; variable declarations are collected unless
their declared type is a type literal. -/
def collectModuleExports : List Statement → ModuleExports
  | [] => ⟨[], [], [], []⟩
  | s :: rest =>
    let r := collectModuleExports rest
    match s with
    | .interfaceDecl _ i => ⟨i :: r.interfaces, r.types, r.functions, r.vars⟩
    | .typeAliasDecl _ ta => ⟨r.interfaces, ta :: r.types, r.functions, r.vars⟩
    | .functionDecl _ f => ⟨r.interfaces, r.types, f :: r.functions, r.vars⟩
    | .variableStatement _ ds =>
        ⟨r.interfaces, r.types, r.functions,
         ds.filter (fun d =>
           !(match d.ty with
             | some t => isTypeLiteralType t
             | none => false)) ++ r.vars⟩
    | _ => r

/-- `generateModuleObject` (lines 891-939). -/
def generateModuleObject (moduleName : String) (e : ModuleExports) : List String :=
  if e.types.isEmpty && e.functions.isEmpty && e.vars.isEmpty then []
  else
    [""]
    ++ ["@js.native", "@JSGlobal(\"" ++ moduleName ++ "\")",
        "object " ++ capitalize moduleName ++ " extends js.Object \x7b"]
    ++ e.types.map typeAliasLine
    ++ e.vars.map moduleVariableLine
    ++ e.functions.map moduleFunctionLine
    ++ ["\x7d", ""]

/-- The file-level export collection (lines 45-52). -/
structure TopLevelExports where
  interfaces : List InterfaceDecl
  types : List TypeAliasDecl
  classes : List ClassDecl
  functions : List FunctionDeclInfo
  exportAssignments : List ExportAssignmentInfo
  vars : List VarDeclInfo  -- the source record field is named `variables`

/-- Collection of file-scope exports (lines 55-79): interfaces and classes
only when carrying the export modifier; every function, export assignment and
type alias; variable declarations only when they have a declared type that is
not a type literal. -/
def collectTopLevel : List Statement → TopLevelExports
  | [] => ⟨[], [], [], [], [], []⟩
  | s :: rest =>
    let r := collectTopLevel rest
    match s with
    | .interfaceDecl he i =>
        if he then ⟨i :: r.interfaces, r.types, r.classes, r.functions, r.exportAssignments,
                    r.vars⟩
        else r
    | .classDecl he c =>
        if he then ⟨r.interfaces, r.types, c :: r.classes, r.functions, r.exportAssignments,
                    r.vars⟩
        else r
    | .functionDecl _ f =>
        ⟨r.interfaces, r.types, r.classes, f :: r.functions, r.exportAssignments, r.vars⟩
    | .exportAssignment info =>
        ⟨r.interfaces, r.types, r.classes, r.functions, info :: r.exportAssignments,
         r.vars⟩
    | .variableStatement _ ds =>
        ⟨r.interfaces, r.types, r.classes, r.functions, r.exportAssignments,
         ds.filter (fun d =>
           match d.ty with
           | some t => !(isTypeLiteralType t)
           | none => false) ++ r.vars⟩
    | .typeAliasDecl _ ta =>
        ⟨r.interfaces, ta :: r.types, r.classes, r.functions, r.exportAssignments, r.vars⟩
    | _ => r

/-- `generateGlobalScopeObject` (lines 941-1004).  Type-alias and variable
lines are written directly; export-assignment forwarding lines and function
lines go through the shared `emit` seen-set (so a function that is also an
export-assignment target is not written twice). -/
def generateGlobalScopeObject (packageName : String) (e : TopLevelExports) : List String :=
  if e.types.isEmpty && e.functions.isEmpty && e.exportAssignments.isEmpty
      && e.vars.isEmpty then []
  else
    let eaLines := e.exportAssignments.flatMap
      (fun ea =>
        if ea.isIdentifierExpr then
          match e.functions.find? (fun f => f.name == some ea.exprText) with
          | some f => [globalFunctionLine f]
          | none => []
        else [])
    let eaEmitted := emitDedup [] eaLines
    let fnEmitted := emitDedup eaEmitted (e.functions.map globalFunctionLine)
    [""]
    ++ ["@js.native", "@JSGlobalScope",
        "object " ++ capitalize packageName ++ " extends js.Object \x7b"]
    ++ e.types.map typeAliasLine
    ++ eaEmitted
    ++ e.vars.map globalVariableLine
    ++ fnEmitted
    ++ ["\x7d", ""]

/-- A property-signature name needing backquotes inside a variable's
object-literal emission (lines 633-635): leading digit or embedded dot. -/
def safeObjectLitMemberName (n : String) : String :=
  if (match n.data with
      | c :: _ => c.isDigit
      | [] => false) || n.data.contains '.' then
    quoteBacktick n
  else n

/-- One member line of an object emitted for a variable with a type-literal
type (lines 627-639): only property signatures contribute. -/
def objectLitMemberLine (m : TsTypeElement) : List String :=
  match m with
  | .propertySignature n _ ty =>
      ["var " ++ safeObjectLitMemberName n ++ ": " ++ optConvert ty "js.Any" ++ " = js.native"]
  | _ => []

/-- `processVariableStatement` (lines 611-649): a variable whose declared
type is a type literal becomes its own `@JSGlobal` object; all other
variables produce nothing here (they are handled by the aggregators). -/
def processVariableStatement (ns : String) (ds : List VarDeclInfo) : List String :=
  ds.flatMap
    (fun d =>
      match d.ty with
      | some (.typeLiteral ms) =>
          [""]
          ++ ["@js.native",
              (if ns.isEmpty then "@JSGlobal"
               else "@JSGlobal(\"" ++ ns ++ "." ++ d.name ++ "\")"),
              "object " ++ d.name ++ " extends js.Object \x7b"]
          ++ ms.flatMap objectLitMemberLine
          ++ ["\x7d", ""]
      | _ => [])

mutual

/-- `processStatement` (lines 101-137): dispatch on the statement kind.  Type
aliases, function declarations, export assignments, import declarations and
unhandled kinds write nothing at their point of occurrence. -/
def processStatement (ns : String) : Statement → List String
  | .moduleDecl _ strLit name body => processModuleDeclaration ns strLit name body
  | .classDecl _ c => processClassDeclaration ns c
  | .interfaceDecl _ i => processInterfaceDeclaration i
  | .enumDecl _ n ms => processEnumDeclaration ns n ms
  | .typeAliasDecl _ _ => []
  | .variableStatement _ ds => processVariableStatement ns ds
  | .functionDecl _ _ => []
  | .exportAssignment _ => []
  | .importDecl => []
  | .otherStatement => []
  termination_by structural s => s

/-- `processModuleDeclaration` (lines 139-197): skip string-literal-named
modules; open a `package` block, process the body while collecting module
exports, and flush `generateModuleObject` when type aliases, functions or
variables were collected. -/
def processModuleDeclaration (ns : String) (nameIsStringLiteral : Bool) (moduleName : String)
    (body : Option (List Statement)) : List String :=
  if nameIsStringLiteral then []
  else
    let newNamespace := if ns.isEmpty then moduleName else ns ++ "." ++ moduleName
    let safeModuleName := sanitizeReserved moduleName
    [""] ++ ["package " ++ safeModuleName ++ " \x7b"]
    ++ (match body with
        | some stmts =>
            processStatements newNamespace stmts
            ++ (let e := collectModuleExports stmts
                if !e.types.isEmpty || !e.functions.isEmpty || !e.vars.isEmpty then
                  generateModuleObject moduleName e
                else [])
        | none => [])
    ++ [""] ++ ["\x7d"]
  termination_by structural body

/-- The `sourceFile.statements.forEach(processStatement)` loop. -/
def processStatements (ns : String) : List Statement → List String
  | [] => []
  | s :: rest => processStatement ns s ++ processStatements ns rest
  termination_by structural l => l

end

/-- The fixed header written at lines 31-35: a blank line, three import
lines, and another blank line. -/
def headerLines : List String :=
  ["", "import scala.scalajs.js", "import js.annotation._", "import js.|", ""]

/-- `ts.isModuleDeclaration` on a statement (line 94). -/
def isModuleStatement : Statement → Bool
  | .moduleDecl _ _ _ _ => true
  | _ => false

/-- `generateScalaOutput` (lines 29-99): header, package clause, the
processed statements, the global scope object when the collected type
aliases, export assignments or variables are non-empty (note: collected
functions do NOT enable this flush, unlike inside
`generateGlobalScopeObject` itself), a blank line, an extra blank line when
any module declaration is present, and the closing brace. -/
def generateScalaOutput (stmts : List Statement) (packageName : String) : List String :=
  let e := collectTopLevel stmts
  headerLines
  ++ [packageDeclaration packageName ++ " \x7b"]
  ++ processStatements "" stmts
  ++ (if !e.types.isEmpty || !e.exportAssignments.isEmpty || !e.vars.isEmpty then
        generateGlobalScopeObject packageName e
      else [])
  ++ [""]
  ++ (if stmts.any isModuleStatement then [""] else [])
  ++ ["\x7d"]

end TsToScala

namespace TsToScala

/-- A class member is filtered out by the amended visibility property when it
is a private-or-protected instance (non-static) property or method. -/
def isHiddenInstanceMember : ClassMember → Bool
  | .property _ mods _ => (mods.isPrivate || mods.isProtected) && !mods.isStatic
  | .method _ mods _ _ _ => (mods.isPrivate || mods.isProtected) && !mods.isStatic
  | _ => false

/-- Drop every private/protected instance property and method of a class. -/
def dropHiddenInstanceMembers (c : ClassDecl) : ClassDecl :=
  ClassDecl.mk c.name c.isAbstract c.typeParams c.heritageClauses
    (c.members.filter (fun m => !(isHiddenInstanceMember m)))

/-- Concrete interface with anonymous object-literal types nested three deep:
`interface I { a: { b: { c: { d: string } } } }`. -/
def ifaceC5 : InterfaceDecl :=
  ⟨"I", [],
   [.propertySignature "a" false (some (.typeLiteral
     [.propertySignature "b" false (some (.typeLiteral
       [.propertySignature "c" false (some (.typeLiteral
         [.propertySignature "d" false (some .stringKw)]))]))]))]⟩

/-- Concrete class `C` with one public static property, used inside the
namespace path `a.b`. -/
def classC4 : ClassDecl :=
  ⟨some "C", false, [], [], [.property "x" ⟨true, false, false, false⟩ (some .numberKw)]⟩

/-- Concrete class `K` whose only member is a private constructor taking
`(x: number)`. -/
def classC9 : ClassDecl :=
  ⟨some "K", false, [], [],
   [.ctorDecl ⟨false, true, false, false⟩ [.mk "x" (some .numberKw) false false]]⟩

/-- Concrete input file consisting of a single exported top-level function
declaration `export function foo()` and nothing else. -/
def stmtsC1 : List Statement := [.functionDecl true ⟨some "foo", [], [], none⟩]

/-! ## Helper lemmas -/

theorem mem_emitDedup {a : String} :
    ∀ (l seen : List String), a ∈ emitDedup seen l ↔ a ∈ l ∧ a ∉ seen := by
  intro l
  induction l with
  | nil => intro seen; simp [emitDedup]
  | cons x ls ih =>
    intro seen
    by_cases hx : x ∈ seen
    · rw [emitDedup, if_pos hx, ih]
      constructor
      · rintro ⟨h1, h2⟩; exact ⟨List.mem_cons_of_mem _ h1, h2⟩
      · rintro ⟨h1, h2⟩
        rcases List.mem_cons.mp h1 with rfl | h1
        · exact absurd hx h2
        · exact ⟨h1, h2⟩
    · rw [emitDedup, if_neg hx]
      constructor
      · intro h
        rcases List.mem_cons.mp h with rfl | h
        · exact ⟨List.mem_cons_self _ _, hx⟩
        · rcases (ih (x :: seen)).mp h with ⟨h1, h2⟩
          refine ⟨List.mem_cons_of_mem _ h1, fun hs => h2 (List.mem_cons_of_mem _ hs)⟩
      · rintro ⟨h1, h2⟩
        rcases List.mem_cons.mp h1 with rfl | h1
        · exact List.mem_cons_self _ _
        · by_cases hax : a = x
          · subst hax; exact List.mem_cons_self _ _
          · refine List.mem_cons_of_mem _ ((ih (x :: seen)).mpr ⟨h1, fun hs => ?_⟩)
            rcases List.mem_cons.mp hs with h | h
            · exact hax h
            · exact h2 h

theorem mem_dedupFirst {a : String} {l : List String} : a ∈ dedupFirst l ↔ a ∈ l := by
  simp [dedupFirst, mem_emitDedup]

theorem convertTypesPaired_map_snd :
    ∀ l : List TsType, (convertTypesPaired l).map (·.2) = l.map convertTypeToScala := by
  intro l
  induction l with
  | nil => rfl
  | cons t ts ih => simp [convertTypesPaired, ih]

theorem convertTypesList_eq_map :
    ∀ l : List TsType, convertTypesList l = l.map convertTypeToScala := by
  intro l
  induction l with
  | nil => rfl
  | cons t ts ih => simp [convertTypesList, ih]

theorem convert_of_stringLiteral {t : TsType} (h : isStringLiteralType t = true) :
    convertTypeToScala t = "String" := by
  unfold isStringLiteralType at h
  split at h
  · rfl
  · cases h

theorem convert_of_numericLiteral {t : TsType} (h : isNumericLiteralType t = true) :
    convertTypeToScala t = "Int" ∨ convertTypeToScala t = "Double" := by
  unfold isNumericLiteralType at h
  split at h
  · rename_i s
    by_cases hd : s.data.contains '.' = true
    · right
      show (if s.data.contains '.' then "Double" else "Int") = "Double"
      rw [if_pos hd]
    · left
      show (if s.data.contains '.' then "Double" else "Int") = "Int"
      rw [if_neg hd]
  · cases h

theorem isScalaIdent_eq_false_of_dash {s : String} (h : '-' ∈ s.data) :
    isScalaIdent s = false := by
  unfold isScalaIdent
  split
  · rfl
  · rename_i c cs heq
    rw [heq] at h
    rcases List.mem_cons.mp h with rfl | h1
    · simp [isIdentStart]
    · have hall : cs.all isIdentChar = false := by
        apply Bool.eq_false_iff.mpr
        intro htrue
        have hc := List.all_eq_true.mp htrue '-' h1
        simp [isIdentChar] at hc
      rw [hall, Bool.and_false]

end TsToScala

namespace TsToScala

theorem string_data_inj {x y : String} (h : x.data = y.data) : x = y := by
  cases x; cases y; simp only at h; rw [h]

theorem string_false_of_numeric {t : TsType} (h : isNumericLiteralType t = true) :
    isStringLiteralType t = false := by
  unfold isNumericLiteralType at h
  split at h
  · rfl
  · cases h

/-- C1: the claim states that a file-level companion container always holds a
direct callable binding for every top-level function declaration, and in
particular that a single exported top-level function with no export
assignment still gets its callable binding.  Evaluating the converter at that
exact input shows the code emits NO global scope object at all (no
`@JSGlobalScope` annotation and no `def foo` binding anywhere), because the
caller-side guard in `generateScalaOutput` omits collected functions — while
`generateGlobalScopeObject`'s own guard includes them and would have emitted
the binding (last conjunct).  The code contradicts the dead function-check in
its own callee and the module-scope analogue, so this is recorded as a code
bug rather than a spec error. -/
theorem c1_lone_exported_function :
    generateScalaOutput stmtsC1 "p"
      = ["", "import scala.scalajs.js", "import js.annotation._", "import js.|", "",
         "package p \x7b", "", "\x7d"]
    ∧ "def foo(): Unit = js.native" ∉ generateScalaOutput stmtsC1 "p"
    ∧ "@JSGlobalScope" ∉ generateScalaOutput stmtsC1 "p"
    ∧ "def foo(): Unit = js.native" ∈ generateGlobalScopeObject "p" (collectTopLevel stmtsC1) := by
  refine ⟨rfl, ?_, ?_, ?_⟩ <;> decide

/-- C6: `convertTypeToScala` is total (it is a total Lean function by
construction) and every node kind without an explicit mapping rule returns
the universal dynamic type `js.Any`: anonymous type-literal nodes used as a
type, the default statement kind, a non-`keyof` type operator, and the
default literal kind. -/
theorem c6_unmapped_kinds_degrade :
    (∀ ms : List TsTypeElement, convertTypeToScala (.typeLiteral ms) = "js.Any")
    ∧ convertTypeToScala .otherType = "js.Any"
    ∧ (∀ t : TsType, convertTypeToScala (.typeOperator false t) = "js.Any")
    ∧ convertLiteralType .otherLit = "js.Any" :=
  ⟨fun _ => rfl, rfl, fun _ => rfl, rfl⟩

/-- C10: every variable binding emitted into a module companion object or
into the file-level global scope object is read-only: the module and global
renderings agree, the rendered line begins with `val ` exactly when the
declaration list carries the const flag and with `def ` otherwise, and it
never begins with `var `. -/
theorem c10_variable_bindings_read_only (v : VarDeclInfo) :
    globalVariableLine v = moduleVariableLine v
    ∧ ((moduleVariableLine v).data.take 4 = "val ".data ↔ v.isConst = true)
    ∧ (v.isConst = false → (moduleVariableLine v).data.take 4 = "def ".data)
    ∧ (moduleVariableLine v).data.take 4 ≠ "var ".data := by
  obtain ⟨n, ty, k⟩ := v
  cases k <;> simp [moduleVariableLine, globalVariableLine, String.data_append]

/-- C2 counterexample: the claimed uniform rule fails in both directions.
A method named `0` fails the bare-identifier grammar and is not reserved,
yet `processMethodSignature` renders it unquoted (`def 0(...)`) where the
spec's uniform sanitize rule would backquote it; and a class-method
parameter named `type` IS reserved, yet `processMethodDeclaration` renders
it unquoted (`def foo(type: String)`), since only interface method
signatures sanitize parameter names. -/
theorem c2_counterexample :
    processInterfaceMember (.methodSignature "0" [] [] none) = ["def 0(): js.Dynamic = js.native"]
    ∧ isScalaIdent "0" = false
    ∧ scalaReservedWords.contains "0" = false
    ∧ sanitizeSpecModel "0" = "`0`"
    ∧ sanitizeReserved "0" = "0"
    ∧ processMethodDeclaration "foo" noMods [] [.mk "type" (some .stringKw) false false]
        none false
      = ["def foo(type: String): Unit = js.native"]
    ∧ scalaReservedWords.contains "type" = true :=
  ⟨rfl, rfl, rfl, rfl, rfl, rfl, rfl⟩

/-- C2 amended: only the package name follows the spec's full sanitize rule
(quoted exactly when reserved or failing the bare-identifier grammar, the
hyphen test being subsumed by the grammar test).  Module, class and method
names, and the parameter names of interface METHOD SIGNATURES, go through
`sanitizeReserved`, which quotes exactly the reserved words (conjuncts 2 and
3, both directions).  Parameter names at every other site — class and
companion method declarations (and likewise secondary constructors,
module-object and global-scope function lines, and index signatures, which
render `p.name` directly) — are never quoted, even when reserved
(conjunct 4).  No non-reserved, grammar-valid identifier is ever quoted
anywhere (conjunct 5). -/
theorem c2_amended (name : String) :
    packageDeclaration name = "package " ++ sanitizeSpecModel name
    ∧ (scalaReservedWords.contains name = true →
        sanitizeReserved name = quoteBacktick name)
    ∧ (scalaReservedWords.contains name = false → sanitizeReserved name = name)
    ∧ (∀ (ty : Option TsType) (opt : Bool),
        renderParamSig (.mk name ty opt false)
          = sanitizeReserved name ++ ": " ++ optConvert ty "js.Any"
              ++ (if opt then " = ???" else "")
        ∧ renderParamDecl (.mk name ty opt false)
          = name ++ ": " ++ optConvert ty "js.Any" ++ (if opt then " = ???" else ""))
    ∧ (scalaReservedWords.contains name = false → isScalaIdent name = true →
        packageDeclaration name = "package " ++ name) := by
  refine ⟨?_, ?_, ?_, ?_, ?_⟩
  · unfold packageDeclaration sanitizeSpecModel
    cases hdash : name.data.contains '-' with
    | true =>
      have hid : isScalaIdent name = false :=
        isScalaIdent_eq_false_of_dash (by simpa using hdash)
      simp [hdash, hid]
    | false =>
      by_cases h : name ∈ scalaReservedWords ∨ isScalaIdent name = false <;>
        simp [hdash, Bool.or_comm, h]
  · intro h
    unfold sanitizeReserved
    rw [h]
    rfl
  · intro h
    unfold sanitizeReserved
    rw [h]
    rfl
  · intro ty opt
    exact ⟨rfl, rfl⟩
  · intro h1 h2
    have hdash : name.data.contains '-' = false := by
      cases hd : name.data.contains '-'
      · rfl
      · rw [isScalaIdent_eq_false_of_dash (by simpa using hd)] at h2; cases h2
    unfold packageDeclaration
    rw [hdash, h1, h2]
    rfl

theorem c2_witness :
    packageDeclaration "ok1" = "package ok1"
    ∧ sanitizeReserved "type" = quoteBacktick "type"
    ∧ renderParamDecl (.mk "type" (some .stringKw) false false) = "type: String" :=
  ⟨(c2_amended "ok1").2.2.2.2 rfl rfl,
   (c2_amended "type").2.1 rfl,
   ((c2_amended "type").2.2.2.1 (some .stringKw) false).2⟩

/-- C3 counterexample: the union `1 | 2.5` mixes a dotted and an undotted
numeric literal; the converter renders it as `"Int | Double"`, not
`"Double"` as the claim requires. -/
theorem c3_counterexample :
    convertTypeToScala (.unionType [.literal (.numLit "1"), .literal (.numLit "2.5")])
      = "Int | Double"
    ∧ "Int | Double" ≠ "Double" :=
  ⟨rfl, by decide⟩

/-- C3 amended: for a non-empty union whose members are all numeric
literals, the converter returns `Int` when no literal text contains a
decimal point, `Double` when every literal text contains one, and otherwise
(mixed) falls through to the general union rendering: member-wise mapping,
first-seen de-duplication and joining with `" | "`. -/
theorem c3_amended (ts : List TsType) (hne : ts ≠ [])
    (hnum : ts.all isNumericLiteralType = true) :
    (ts.all numericLiteralNoDot = true → convertTypeToScala (.unionType ts) = "Int")
    ∧ (ts.all numericLiteralHasDot = true → convertTypeToScala (.unionType ts) = "Double")
    ∧ (ts.all numericLiteralNoDot = false → ts.all numericLiteralHasDot = false →
        convertTypeToScala (.unionType ts)
          = String.intercalate " | " (dedupFirst (ts.map convertTypeToScala))) := by
  have hstr : ts.all isStringLiteralType = false := by
    cases ts with
    | nil => exact absurd rfl hne
    | cons t ts' =>
      have h1 := List.all_eq_true.mp hnum t (List.mem_cons_self _ _)
      simp [List.all_cons, string_false_of_numeric h1]
  refine ⟨?_, ?_, ?_⟩
  · intro hnd
    show convertUnionTypeCore ts (convertTypesPaired ts) = "Int"
    simp [convertUnionTypeCore, hstr, hnum, hnd]
  · intro hd
    have hnd : ts.all numericLiteralNoDot = false := by
      cases ts with
      | nil => exact absurd rfl hne
      | cons t ts' =>
        have h1 := List.all_eq_true.mp hd t (List.mem_cons_self _ _)
        have h2 : numericLiteralNoDot t = false := by
          unfold numericLiteralHasDot at h1
          split at h1
          · simp only [numericLiteralNoDot]
            rw [h1]
            rfl
          · cases h1
        simp [List.all_cons, h2]
    show convertUnionTypeCore ts (convertTypesPaired ts) = "Double"
    simp [convertUnionTypeCore, hstr, hnum, hd, hnd]
  · intro hnd hd
    have hnull : "Null" ∉ dedupFirst (ts.map convertTypeToScala) := by
      rw [mem_dedupFirst]
      intro hmem
      rcases List.mem_map.mp hmem with ⟨t, ht, hconv⟩
      rcases convert_of_numericLiteral (List.all_eq_true.mp hnum t ht) with h | h <;>
        (rw [h] at hconv; exact absurd hconv (by decide))
    have hany : ts.any isStringLiteralType = false := by
      apply Bool.eq_false_iff.mpr
      intro htrue
      rcases List.any_eq_true.mp htrue with ⟨t, ht, hstr'⟩
      rw [string_false_of_numeric (List.all_eq_true.mp hnum t ht)] at hstr'
      cases hstr'
    show convertUnionTypeCore ts (convertTypesPaired ts) = _
    simp [convertUnionTypeCore, hstr, hnum, hnd, hd, convertTypesPaired_map_snd, hnull, hany]

theorem c3_witness :
    convertTypeToScala (.unionType [.literal (.numLit "1"), .literal (.numLit "2")]) = "Int" :=
  (c3_amended [.literal (.numLit "1"), .literal (.numLit "2")]
    (List.cons_ne_nil _ _) rfl).1 rfl

end TsToScala

namespace TsToScala

/-- C4 counterexample: for class `C` with one public static member nested in
namespace path `a.b`, the class annotation is `@JSGlobal("a.b.C")` but the
static companion object's annotation is `@JSGlobal("b.C")` — the full dotted
path occurs exactly once in the output, so the companion does not carry the
same fully qualified target path as the class, contrary to the claim. -/
theorem c4_counterexample :
    processClassDeclaration "a.b" classC4
      = ["", "@js.native", "@JSGlobal(\"a.b.C\")", "class C extends js.Object \x7b", "\x7d", "",
         "@js.native", "@JSGlobal(\"b.C\")", "object C extends js.Object \x7b",
         "var x: Double = js.native", "\x7d", ""]
    ∧ (processClassDeclaration "a.b" classC4).count "@JSGlobal(\"a.b.C\")" = 1
    ∧ "@JSGlobal(\"b.C\")" ∈ processClassDeclaration "a.b" classC4 := by
  refine ⟨rfl, rfl, by decide⟩

/-- C4 amended: for a class with a public static property nested in a
non-empty namespace, the companion object's global-binding annotation names
`<last namespace segment>.<ClassName>` (the source computes
`namespace.split('.').pop()`), and it coincides with the class's own
fully-qualified annotation exactly when the namespace path equals its last
segment, i.e. has a single segment. -/
theorem c4_amended (ns className : String) (c : ClassDecl)
    (hns : ns.isEmpty = false)
    (hname : c.name = some className)
    (hstat : (c.members.filter isStaticPropertyMember).isEmpty = false) :
    companionJSGlobalAnn ns className ∈ processClassDeclaration ns c
    ∧ companionJSGlobalAnn ns className
        = "@JSGlobal(\"" ++ lastSegment ns ++ "." ++ className ++ "\")"
    ∧ (companionJSGlobalAnn ns className = classJSGlobalAnn ns className
        ↔ lastSegment ns = ns) := by
  refine ⟨?_, ?_, ?_⟩
  · have hguard : ((c.members.filter isStaticMethodMember).isEmpty
        && (c.members.filter isStaticPropertyMember).isEmpty) = false := by
      rw [hstat, Bool.and_false]
    simp [processClassDeclaration, hname, hguard, List.mem_append]
  · unfold companionJSGlobalAnn
    rw [hns]
    rfl
  · have e1 : companionJSGlobalAnn ns className
        = "@JSGlobal(\"" ++ lastSegment ns ++ "." ++ className ++ "\")" := by
      unfold companionJSGlobalAnn
      rw [hns]
      rfl
    have e2 : classJSGlobalAnn ns className
        = "@JSGlobal(\"" ++ ns ++ "." ++ className ++ "\")" := by
      unfold classJSGlobalAnn
      rw [hns]
      rfl
    rw [e1, e2]
    constructor
    · intro h
      have hd := congrArg String.data h
      simp only [String.data_append] at hd
      exact string_data_inj (List.append_cancel_left
        (List.append_cancel_right (List.append_cancel_right (List.append_cancel_right hd))))
    · intro h
      rw [h]

theorem c4_witness :
    companionJSGlobalAnn "a.b" "C" ∈ processClassDeclaration "a.b" classC4
    ∧ (companionJSGlobalAnn "a.b" "C" = classJSGlobalAnn "a.b" "C"
        ↔ lastSegment "a.b" = "a.b") :=
  ⟨(c4_amended "a.b" "C" classC4 rfl rfl rfl).1, (c4_amended "a.b" "C" classC4 rfl rfl rfl).2.2⟩

/-- C5 counterexample: for `interface I { a: { b: { c: { d: string } } } }`
the expansion produces nested traits for `a` (depth 1) and `b` (depth 2),
but the depth-3 type-literal property `c` is rendered as
`var c: js.Any = js.native` and no `trait C` is generated — the recursion
does not continue to arbitrary depth as the claim states. -/
theorem c5_counterexample :
    processInterfaceDeclaration ifaceC5
      = ["", "@js.native", "trait I extends js.Object \x7b", "var a: I.A = js.native", "\x7d",
         "", "object I \x7b",
           "@js.native", "trait A extends js.Object \x7b", "var b: A.B = js.native", "\x7d",
           "", "object A \x7b",
             "@js.native", "trait B extends js.Object \x7b", "var c: js.Any = js.native", "\x7d",
           "\x7d",
         "\x7d", ""]
    ∧ "var c: js.Any = js.native" ∈ processInterfaceDeclaration ifaceC5
    ∧ "trait C extends js.Object \x7b" ∉ processInterfaceDeclaration ifaceC5 := by
  refine ⟨rfl, by decide, by decide⟩

/-- C5 amended: the synthetic-nested-type expansion works at the first
level for every interface (a type-literal property is rendered against
`Interface.CapitalizedProp` and a nested trait of that name is emitted in
the companion object), and it recurses exactly one more level; at the third
nesting level a type-literal-typed property degrades to the universal
dynamic type `js.Any` instead of being expanded (second conjunct, shown by
full evaluation on the three-deep input). -/
theorem c5_amended :
    (∀ (iName pName : String) (ro : Bool) (ms : List TsTypeElement),
      ((if ro then "def" else "var") ++ " " ++ pName ++ ": " ++ iName ++ "."
          ++ capitalize pName ++ " = js.native")
        ∈ processInterfaceDeclaration
            ⟨iName, [], [.propertySignature pName ro (some (.typeLiteral ms))]⟩
      ∧ ("trait " ++ capitalize pName ++ " extends js.Object \x7b")
        ∈ processInterfaceDeclaration
            ⟨iName, [], [.propertySignature pName ro (some (.typeLiteral ms))]⟩)
    ∧ processInterfaceDeclaration ifaceC5
      = ["", "@js.native", "trait I extends js.Object \x7b", "var a: I.A = js.native", "\x7d",
         "", "object I \x7b",
           "@js.native", "trait A extends js.Object \x7b", "var b: A.B = js.native", "\x7d",
           "", "object A \x7b",
             "@js.native", "trait B extends js.Object \x7b", "var c: js.Any = js.native", "\x7d",
           "\x7d",
         "\x7d", ""] := by
  constructor
  · intro iName pName ro ms
    constructor
    · simp [processInterfaceDeclaration, interfaceTraitItem, dedupFirst, emitDedup,
        List.mem_append]
    · simp [processInterfaceDeclaration, companionEntry, isInlineTypeLiteralProp,
        List.mem_append]
  · rfl

/-- C7 counterexample: the emitted header is a blank line followed by THREE
fixed imports, one blank line, and the package clause — among the five lines
before the package clause exactly 3 lead with the word `import`, not the
four the claim states. -/
theorem c7_counterexample :
    (generateScalaOutput [] "p").take 6
      = ["", "import scala.scalajs.js", "import js.annotation._", "import js.|", "",
         "package p \x7b"]
    ∧ ((generateScalaOutput [] "p").take 5).countP (fun l => l.data.take 6 == "import".data)
        = 3 :=
  ⟨rfl, rfl⟩

/-- C7 amended: for every input and package name the output begins with a
blank line, the three fixed import lines, a blank line, and the package
clause; the package name is rendered backquoted exactly when it contains a
hyphen, fails the bare-identifier grammar, or is a reserved word, and is
otherwise rendered unchanged. -/
theorem c7_amended (stmts : List Statement) (pkg : String) :
    (generateScalaOutput stmts pkg).take 6
      = ["", "import scala.scalajs.js", "import js.annotation._", "import js.|", "",
         packageDeclaration pkg ++ " \x7b"]
    ∧ (packageDeclaration pkg = "package " ++ quoteBacktick pkg
        ↔ (pkg.data.contains '-' = true ∨ isScalaIdent pkg = false
            ∨ scalaReservedWords.contains pkg = true))
    ∧ (packageDeclaration pkg = "package " ++ quoteBacktick pkg
        ∨ packageDeclaration pkg = "package " ++ pkg) := by
  have hne : "package " ++ pkg ≠ "package " ++ quoteBacktick pkg := by
    intro h
    have hl := congrArg String.length h
    unfold quoteBacktick at hl
    rw [String.length_append, String.length_append, String.length_append,
        String.length_append] at hl
    have h8 : ("package " : String).length = 8 := rfl
    have h1 : ("`" : String).length = 1 := rfl
    rw [h8, h1] at hl
    omega
  refine ⟨rfl, ?_, ?_⟩
  · unfold packageDeclaration
    cases h1 : pkg.data.contains '-' <;> cases h2 : isScalaIdent pkg <;>
      cases h3 : scalaReservedWords.contains pkg <;> simp [hne]
  · unfold packageDeclaration
    split
    · exact Or.inl rfl
    · exact Or.inr rfl

theorem c7_witness : packageDeclaration "my-pkg" = "package " ++ quoteBacktick "my-pkg" :=
  (c7_amended [] "my-pkg").2.1.mpr (Or.inl rfl)

/-- C8: for every union whose mapped, first-seen-de-duplicated member set is
exactly `{T, Null, Unit}` for a single other type `T`, the converter returns
exactly `T | Null | Unit` — the text of `T` first, then `Null`, then
`Unit`. -/
theorem c8_nullable_union_collapse (ts : List TsType) (T : String)
    (hTn : T ≠ "Null") (hTu : T ≠ "Unit")
    (hperm : (dedupFirst (ts.map convertTypeToScala)).Perm [T, "Null", "Unit"]) :
    convertTypeToScala (.unionType ts) = T ++ " | Null | Unit" := by
  have hmemN : "Null" ∈ dedupFirst (ts.map convertTypeToScala) :=
    hperm.mem_iff.mpr (by simp)
  have hmemU : "Unit" ∈ dedupFirst (ts.map convertTypeToScala) :=
    hperm.mem_iff.mpr (by simp)
  rcases List.mem_map.mp (mem_dedupFirst.mp hmemN) with ⟨t0, ht0, hconv0⟩
  have hstr : ts.all isStringLiteralType = false := by
    apply Bool.eq_false_iff.mpr
    intro hall
    rw [convert_of_stringLiteral (List.all_eq_true.mp hall t0 ht0)] at hconv0
    exact absurd hconv0 (by decide)
  have hnum : ts.all isNumericLiteralType = false := by
    apply Bool.eq_false_iff.mpr
    intro hall
    rcases convert_of_numericLiteral (List.all_eq_true.mp hall t0 ht0) with h | h <;>
      (rw [h] at hconv0; exact absurd hconv0 (by decide))
  have hfilter : (dedupFirst (ts.map convertTypeToScala)).filter
      (fun t => t != "Null" && t != "Unit") = [T] := by
    have hp := hperm.filter (fun t => t != "Null" && t != "Unit")
    have heq : ([T, "Null", "Unit"].filter (fun t => t != "Null" && t != "Unit")) = [T] := by
      have b1 : (T != "Null") = true := by simp [hTn]
      have b2 : (T != "Unit") = true := by simp [hTu]
      simp [List.filter, b1, b2]
    rw [heq] at hp
    exact List.perm_singleton.mp hp
  show convertUnionTypeCore ts (convertTypesPaired ts) = _
  simp only [convertUnionTypeCore, convertTypesPaired_map_snd, hstr, hnum, Bool.false_and,
    Bool.false_eq_true, if_false]
  rw [if_pos ⟨hmemN, hmemU, by rw [hfilter]; rfl⟩, hfilter]
  rfl

theorem c8_witness :
    convertTypeToScala (.unionType [.typeRef "A" [], .literal .nullLit, .undefinedKw])
      = "A | Null | Unit" := by
  apply c8_nullable_union_collapse _ "A" (by decide) (by decide)
  have h : dedupFirst ([TsType.typeRef "A" [], .literal .nullLit, .undefinedKw].map
      convertTypeToScala) = ["A", "Null", "Unit"] := rfl
  rw [h]

/-- C9 counterexample: a class whose only member is a PRIVATE constructor
taking `(x: number)` still emits the secondary constructor
`def this(x: Double) = this()` and the restricted primary constructor
marker — private constructors are not suppressed, contrary to the claim. -/
theorem c9_counterexample :
    "def this(x: Double) = this()" ∈ processClassDeclaration "" classC9
    ∧ "class K protected () extends js.Object \x7b" ∈ processClassDeclaration "" classC9 := by
  refine ⟨by decide, by decide⟩

theorem filter_dropHidden_eq (q : ClassMember → Bool)
    (hq : ∀ m, isHiddenInstanceMember m = true → q m = false) :
    ∀ ms : List ClassMember,
      (ms.filter (fun m => !(isHiddenInstanceMember m))).filter q = ms.filter q := by
  intro ms
  induction ms with
  | nil => rfl
  | cons m ms ih =>
    cases hm : isHiddenInstanceMember m
    · simp [List.filter_cons, hm, ih]
    · simp [List.filter_cons, hm, ih, hq m hm]

theorem flatMap_dropHidden_eq (g : ClassMember → List String)
    (hg : ∀ m, isHiddenInstanceMember m = true → g m = []) :
    ∀ ms : List ClassMember,
      (ms.filter (fun m => !(isHiddenInstanceMember m))).flatMap g = ms.flatMap g := by
  intro ms
  induction ms with
  | nil => rfl
  | cons m ms ih =>
    cases hm : isHiddenInstanceMember m
    · simp [List.filter_cons, hm, ih]
    · simp [List.filter_cons, hm, ih, hg m hm]

end TsToScala

namespace TsToScala

theorem hidden_not_staticMethod :
    ∀ m, isHiddenInstanceMember m = true → isStaticMethodMember m = false := by
  intro m hm
  cases m with
  | property n mods ty => rfl
  | method n mods tps ps ret =>
    unfold isHiddenInstanceMember at hm
    rw [Bool.and_eq_true] at hm
    unfold isStaticMethodMember
    simpa using hm.2
  | ctorDecl mods ps => simp [isHiddenInstanceMember] at hm
  | otherMember => simp [isHiddenInstanceMember] at hm

theorem hidden_not_staticProperty :
    ∀ m, isHiddenInstanceMember m = true → isStaticPropertyMember m = false := by
  intro m hm
  cases m with
  | property n mods ty =>
    unfold isHiddenInstanceMember at hm
    rw [Bool.and_eq_true] at hm
    unfold isStaticPropertyMember
    simpa using hm.2
  | method n mods tps ps ret => rfl
  | ctorDecl mods ps => simp [isHiddenInstanceMember] at hm
  | otherMember => simp [isHiddenInstanceMember] at hm

theorem hidden_not_ctor :
    ∀ m, isHiddenInstanceMember m = true → isCtorMember m = false := by
  intro m hm
  cases m with
  | property n mods ty => rfl
  | method n mods tps ps ret => rfl
  | ctorDecl mods ps => simp [isHiddenInstanceMember] at hm
  | otherMember => simp [isHiddenInstanceMember] at hm

theorem hidden_no_instance_lines (b : Bool) :
    ∀ m, isHiddenInstanceMember m = true →
      (if isStaticModifiedMember m then [] else processClassMember m b) = ([] : List String) := by
  intro m hm
  cases m with
  | property n mods ty =>
    unfold isHiddenInstanceMember at hm
    rw [Bool.and_eq_true] at hm
    simp [isStaticModifiedMember, processClassMember, processPropertyDeclaration, hm.1]
  | method n mods tps ps ret =>
    unfold isHiddenInstanceMember at hm
    rw [Bool.and_eq_true] at hm
    simp [isStaticModifiedMember, processClassMember, processMethodDeclaration, hm.1]
  | ctorDecl mods ps => simp [isHiddenInstanceMember] at hm
  | otherMember => simp [isHiddenInstanceMember] at hm

/-- C9 amended: private/protected properties and methods contribute no text:
removing every private/protected instance property and method from a class
leaves the emitted lines unchanged, and the static-member emitters (and the
member emitters themselves) return no lines for private/protected members.
Constructor declarations, however, are emitted regardless of their
private/protected modifiers. -/
theorem c9_amended :
    (∀ (ns : String) (c : ClassDecl),
       processClassDeclaration ns (dropHiddenInstanceMembers c) = processClassDeclaration ns c)
    ∧ (∀ n mods ty, (mods.isPrivate || mods.isProtected) = true →
         staticPropertyCompanionLines (.property n mods ty) = [])
    ∧ (∀ n mods tps ps ret, (mods.isPrivate || mods.isProtected) = true →
         staticMethodCompanionLines (.method n mods tps ps ret) = [])
    ∧ (∀ n mods ty b, (mods.isPrivate || mods.isProtected) = true →
         processPropertyDeclaration n mods ty b = [])
    ∧ (∀ n mods tps ps ret b, (mods.isPrivate || mods.isProtected) = true →
         processMethodDeclaration n mods tps ps ret b = []) := by
  refine ⟨?_, ?_, ?_, ?_, ?_⟩
  · intro ns c
    simp only [processClassDeclaration, dropHiddenInstanceMembers,
      filter_dropHidden_eq isStaticMethodMember hidden_not_staticMethod,
      filter_dropHidden_eq isStaticPropertyMember hidden_not_staticProperty,
      filter_dropHidden_eq isCtorMember hidden_not_ctor,
      flatMap_dropHidden_eq _ (hidden_no_instance_lines c.isAbstract)]
  · intro n mods ty h
    simp [staticPropertyCompanionLines, h]
  · intro n mods tps ps ret h
    simp [staticMethodCompanionLines, processMethodDeclaration, h]
  · intro n mods ty b h
    simp [processPropertyDeclaration, h]
  · intro n mods tps ps ret b h
    simp [processMethodDeclaration, h]

theorem c9_witness :
    processClassDeclaration "" (dropHiddenInstanceMembers classC9)
      = processClassDeclaration "" classC9
    ∧ staticPropertyCompanionLines (.property "p" ⟨true, true, false, false⟩ none) = [] :=
  ⟨c9_amended.1 "" classC9, c9_amended.2.1 "p" ⟨true, true, false, false⟩ none rfl⟩

end TsToScala
